import Mathlib

/-!
Verification of the Technical Indicator & Signal Generation Engine of the
analyze-korean-stocks repository, shallowly embedded from
`src/stock_analyzer/indicators/technical.py` and
`src/stock_analyzer/models/schemas.py`.

Python floats are modelled as `PFloat`: either a rational value or NaN.
Comparisons involving NaN are false, and arithmetic propagates NaN, matching
IEEE/Python semantics on the operations the engine uses.  `Option PFloat`
models Python's `float | None` fields.  `pandas_ta` indicator routines are
external to the repository; `calculate_all` is therefore parameterised over a
`TaBackend` record supplying their results at the library boundary (the
DataFrame column selection of the source is abstracted into that boundary).
-/

/-- A Python float: a real (rational) value or NaN. -/
inductive PFloat where
  | val : ℚ → PFloat
  | nan : PFloat
deriving DecidableEq

namespace PFloat

/-- Strict less-than on Python floats; any comparison with NaN is false. -/
def lt : PFloat → PFloat → Bool
  | val a, val b => a < b
  | _, _ => false

/-- Less-or-equal on Python floats; any comparison with NaN is false. -/
def le : PFloat → PFloat → Bool
  | val a, val b => a ≤ b
  | _, _ => false

/-- Subtraction; NaN propagates. -/
def sub : PFloat → PFloat → PFloat
  | val a, val b => val (a - b)
  | _, _ => nan

/-- Absolute value; NaN propagates. -/
def pabs : PFloat → PFloat
  | val a => val |a|
  | nan => nan

/-- Multiplication by a rational constant; NaN propagates. -/
def mulC : PFloat → ℚ → PFloat
  | val a, c => val (a * c)
  | nan, _ => nan

/-- Division by a (nonzero) rational constant; NaN propagates. -/
def divC : PFloat → ℚ → PFloat
  | val a, c => val (a / c)
  | nan, _ => nan

/-- The rational value underlying a float, 0 for NaN (used only where the
source has already ruled NaN out). -/
def toRat : PFloat → ℚ
  | val a => a
  | nan => 0

end PFloat

/-- Python `int(q)` on a real value: truncation toward zero (floor for
non-negative arguments, ceiling for negative ones). -/
def pyTrunc (q : ℚ) : Int :=
  if 0 ≤ q then ⌊q⌋ else ⌈q⌉

/-- Python `int(x)` on a float; NaN never reaches this in the source paths,
so it is given an arbitrary total value there. -/
def pyIntP : PFloat → Int
  | PFloat.val q => pyTrunc q
  | PFloat.nan => 0

/-- `SignalType` enum of `schemas.py`. -/
inductive SignalType where
  | BUY
  | SELL
  | HOLD
deriving DecidableEq

/-- `Signal` model of `schemas.py` (the `ge=1, le=5` validation on
`strength` is proved as an invariant rather than baked into the type). -/
structure Signal where
  indicator : String
  signal : SignalType
  reason : String
  strength : Int
deriving DecidableEq

/-- `PriceData` model of `schemas.py`; dates are modelled as ordinals. -/
structure PriceData where
  date : Nat
  «open» : ℚ
  high : ℚ
  low : ℚ
  close : ℚ
  volume : Nat
  trading_value : ℚ
  change_rate : ℚ
deriving DecidableEq

/-- `TechnicalIndicators` model of `schemas.py`: six optional float fields. -/
structure TechnicalIndicators where
  date : Nat
  rsi : Option PFloat
  trix : Option PFloat
  trix_signal : Option PFloat
  macd : Option PFloat
  macd_signal : Option PFloat
  macd_histogram : Option PFloat
deriving DecidableEq

/-- The calculator's configured periods (`TechnicalIndicatorCalculator.__init__`). -/
structure TechnicalIndicatorCalculator where
  rsi_length : Int
  trix_length : Int
  trix_signal : Int
  macd_fast : Int
  macd_slow : Int
  macd_signal : Int
deriving DecidableEq

/-- The default calculator: `TechnicalIndicatorCalculator()` with the
documented default periods. -/
def defaultCalc : TechnicalIndicatorCalculator :=
  { rsi_length := 14, trix_length := 15, trix_signal := 9
    macd_fast := 12, macd_slow := 26, macd_signal := 9 }

/-- Python `length or default` on an optional int argument: `None` and `0`
are falsy and select the default. -/
def pyOrInt : Option Int → Int → Int
  | none, d => d
  | some v, d => if v = 0 then d else v

/-- `_generate_rsi_signal` of `technical.py` (lines 175-216), translated
branch for branch; chained comparisons such as `prev_rsi < 30 <= current_rsi`
become conjunctions of float comparisons. -/
def generateRsiSignal (current_rsi : PFloat) (prev_rsi : Option PFloat) :
    Option Signal :=
  if current_rsi.lt (PFloat.val 30) then
    some { indicator := "RSI", signal := SignalType.BUY
           reason := "RSI 과매도 구간 진입"
           strength := min 5 (pyIntP (((PFloat.val 30).sub current_rsi).divC 6) + 1) }
  else if (PFloat.val 70).lt current_rsi then
    some { indicator := "RSI", signal := SignalType.SELL
           reason := "RSI 과매수 구간 진입"
           strength := min 5 (pyIntP ((current_rsi.sub (PFloat.val 70)).divC 6) + 1) }
  else
    match prev_rsi with
    | some p =>
      if p.lt (PFloat.val 30) && (PFloat.val 30).le current_rsi then
        some { indicator := "RSI", signal := SignalType.BUY
               reason := "RSI 과매도 구간 탈출", strength := 2 }
      else if (PFloat.val 70).lt p && current_rsi.le (PFloat.val 70) then
        some { indicator := "RSI", signal := SignalType.SELL
               reason := "RSI 과매수 구간 탈출", strength := 2 }
      else none
    | none => none

/-- `_generate_trix_signal` of `technical.py` (lines 218-265). -/
def generateTrixSignal (current_trix current_signal : PFloat)
    (prev_trix prev_signal : Option PFloat) : Option Signal :=
  match prev_trix, prev_signal with
  | some pt, some ps =>
    if pt.le ps && current_signal.lt current_trix then
      some { indicator := "TRIX", signal := SignalType.BUY
             reason := "TRIX 골든크로스 - 시그널 상향 돌파"
             strength := min 5 (pyIntP (((current_trix.sub current_signal).pabs).mulC 10) + 2) }
    else if ps.le pt && current_trix.lt current_signal then
      some { indicator := "TRIX", signal := SignalType.SELL
             reason := "TRIX 데드크로스 - 시그널 하향 돌파"
             strength := min 5 (pyIntP (((current_trix.sub current_signal).pabs).mulC 10) + 2) }
    else if pt.le (PFloat.val 0) && (PFloat.val 0).lt current_trix then
      some { indicator := "TRIX", signal := SignalType.BUY
             reason := "TRIX 0선 상향 돌파", strength := 2 }
    else if (PFloat.val 0).le pt && current_trix.lt (PFloat.val 0) then
      some { indicator := "TRIX", signal := SignalType.SELL
             reason := "TRIX 0선 하향 돌파", strength := 2 }
    else none
  | _, _ => none

/-- `_generate_macd_signal` of `technical.py` (lines 267-314); same shape as
the TRIX rule but the strength formula divides by 100. -/
def generateMacdSignal (current_macd current_signal : PFloat)
    (prev_macd prev_signal : Option PFloat) : Option Signal :=
  match prev_macd, prev_signal with
  | some pm, some ps =>
    if pm.le ps && current_signal.lt current_macd then
      some { indicator := "MACD", signal := SignalType.BUY
             reason := "MACD 골든크로스 - 시그널 상향 돌파"
             strength := min 5 (pyIntP (((current_macd.sub current_signal).pabs).divC 100) + 2) }
    else if ps.le pm && current_macd.lt current_signal then
      some { indicator := "MACD", signal := SignalType.SELL
             reason := "MACD 데드크로스 - 시그널 하향 돌파"
             strength := min 5 (pyIntP (((current_macd.sub current_signal).pabs).divC 100) + 2) }
    else if pm.le (PFloat.val 0) && (PFloat.val 0).lt current_macd then
      some { indicator := "MACD", signal := SignalType.BUY
             reason := "MACD 0선 상향 돌파", strength := 2 }
    else if (PFloat.val 0).le pm && current_macd.lt (PFloat.val 0) then
      some { indicator := "MACD", signal := SignalType.SELL
             reason := "MACD 0선 하향 돌파", strength := 2 }
    else none
  | _, _ => none

/-- The RSI block of `generate_signals`: evaluated only when the latest RSI
value is present (`latest.rsi is not None`), appending at most one signal. -/
def rsiPart (latest prev : TechnicalIndicators) : List Signal :=
  match latest.rsi with
  | some r =>
    match generateRsiSignal r prev.rsi with
    | some s => [s]
    | none => []
  | none => []

/-- The TRIX block of `generate_signals`: requires the latest TRIX value and
signal-line value to be present. -/
def trixPart (latest prev : TechnicalIndicators) : List Signal :=
  match latest.trix, latest.trix_signal with
  | some t, some ts =>
    match generateTrixSignal t ts prev.trix prev.trix_signal with
    | some s => [s]
    | none => []
  | _, _ => []

/-- The MACD block of `generate_signals`: requires the latest MACD value and
signal-line value to be present. -/
def macdPart (latest prev : TechnicalIndicators) : List Signal :=
  match latest.macd, latest.macd_signal with
  | some m, some ms =>
    match generateMacdSignal m ms prev.macd prev.macd_signal with
    | some s => [s]
    | none => []
  | _, _ => []

/-- `generate_signals` of `technical.py` (lines 133-173): with fewer than two
points the result is empty; otherwise the three family blocks are evaluated
on `indicators[-1]` and `indicators[-2]` and appended in order RSI, TRIX,
MACD.  (The method reads no calculator state, so it is a plain function.) -/
def generate_signals (indicators : List TechnicalIndicators) : List Signal :=
  match indicators.reverse with
  | latest :: prev :: _ =>
    rsiPart latest prev ++ trixPart latest prev ++ macdPart latest prev
  | _ => []

/-- `_safe_float` of `technical.py` (lines 316-323): `None` stays absent and
NaN becomes absent; a finite value passes through. -/
def safe_float : Option PFloat → Option PFloat
  | none => none
  | some PFloat.nan => none
  | some (PFloat.val q) => some (PFloat.val q)

/-- The `pandas_ta` library boundary: the results of `ta.rsi`, `ta.trix` and
`ta.macd` on a close series with the given periods.  `none` models the
library returning `None` (or an empty frame); inside a returned series,
`none` is a Python `None` entry and NaN entries are `PFloat.nan`.  The
DataFrame column selection of the source is abstracted into this boundary. -/
structure TaBackend where
  taRsi : List PFloat → Int → Option (List (Option PFloat))
  taTrix : List PFloat → Int → Int →
    Option (List (Option PFloat) × List (Option PFloat))
  taMacd : List PFloat → Int → Int → Int →
    Option (List (Option PFloat) × List (Option PFloat) × List (Option PFloat))

/-- `calculate_rsi` of `technical.py` (lines 69-79): the period argument is
combined with the configured default by Python truthiness (`length or
self.rsi_length`); a `None` library result becomes an all-`None` series of
the input length. -/
def TechnicalIndicatorCalculator.calculate_rsi
    (c : TechnicalIndicatorCalculator) (ta : TaBackend)
    (close : List PFloat) (length : Option Int) : List (Option PFloat) :=
  let L := pyOrInt length c.rsi_length
  match ta.taRsi close L with
  | none => List.replicate close.length none
  | some r => r

/-- `calculate_trix` of `technical.py` (lines 81-103). -/
def TechnicalIndicatorCalculator.calculate_trix
    (c : TechnicalIndicatorCalculator) (ta : TaBackend)
    (close : List PFloat) (length signal : Option Int) :
    List (Option PFloat) × List (Option PFloat) :=
  let L := pyOrInt length c.trix_length
  let S := pyOrInt signal c.trix_signal
  match ta.taTrix close L S with
  | none => (List.replicate close.length none, List.replicate close.length none)
  | some r => r

/-- `calculate_macd` of `technical.py` (lines 105-131). -/
def TechnicalIndicatorCalculator.calculate_macd
    (c : TechnicalIndicatorCalculator) (ta : TaBackend)
    (close : List PFloat) (fast slow signal : Option Int) :
    List (Option PFloat) × List (Option PFloat) × List (Option PFloat) :=
  let F := pyOrInt fast c.macd_fast
  let S := pyOrInt slow c.macd_slow
  let G := pyOrInt signal c.macd_signal
  match ta.taMacd close F S G with
  | none =>
    (List.replicate close.length none, List.replicate close.length none,
     List.replicate close.length none)
  | some r => r

/-- `calculate_all` of `technical.py` (lines 28-67): empty input short
circuits to the empty list; otherwise the three indicator series are
computed once from the close series, and the i-th output point carries the
i-th input date together with each series value at i run through
`_safe_float` (a position beyond a series length yields `None`). -/
def TechnicalIndicatorCalculator.calculate_all
    (c : TechnicalIndicatorCalculator) (ta : TaBackend)
    (price_data : List PriceData) : List TechnicalIndicators :=
  if price_data.isEmpty then []
  else
    let close := price_data.map fun p => PFloat.val p.close
    let rsi := c.calculate_rsi ta close none
    let tx := c.calculate_trix ta close none none
    let mc := c.calculate_macd ta close none none none
    price_data.enum.map fun ip =>
      { date := ip.2.date
        rsi := (rsi.get? ip.1).bind safe_float
        trix := (tx.1.get? ip.1).bind safe_float
        trix_signal := (tx.2.get? ip.1).bind safe_float
        macd := (mc.1.get? ip.1).bind safe_float
        macd_signal := (mc.2.1.get? ip.1).bind safe_float
        macd_histogram := (mc.2.2.get? ip.1).bind safe_float }

/-- Wilder's recursive moving average with period `L`: each value blends the
previous smoothed value with the current observation,
`cur = (prev * (L - 1) + x) / L`, i.e. weight `1/L` on the new observation. -/
def wilderRma (L : Nat) : ℚ → List ℚ → List ℚ
  | _, [] => []
  | prev, x :: xs =>
    let cur := (prev * ((L : ℚ) - 1) + x) / L
    cur :: wilderRma L cur xs

/-- Modelled from the spec: `pandas_ta`'s `ta.rsi` (the momentum oscillator),
which is not part of this repository.  Per spec section 4.1: average upward
and downward moves over the trailing window with Wilder-style exponential
smoothing of weight `1/L`, seeded by a simple average over the first `L`
moves; the value is the ratio transform `100 * ag / (ag + al)`, undefined for
the first `L` points (insufficient history) and at a divide-by-zero of the
ratio. -/
def taRsiModel (close : List ℚ) (L : Nat) : List (Option ℚ) :=
  if L = 0 ∨ close.length ≤ L then
    List.replicate close.length none
  else
    let diffs := (close.zip close.tail).map fun p => p.2 - p.1
    let gains := diffs.map fun d => max d 0
    let losses := diffs.map fun d => max (-d) 0
    let seedG := (gains.take L).sum / L
    let seedL := (losses.take L).sum / L
    let ags := seedG :: wilderRma L seedG (gains.drop L)
    let als := seedL :: wilderRma L seedL (losses.drop L)
    List.replicate L none ++
      (ags.zip als).map fun p =>
        if p.1 + p.2 = 0 then none else some (100 * p.1 / (p.1 + p.2))

/-- The RSI model wrapped as a `TaBackend` entry: a plain float series in, an
always-present series of optional floats out. -/
def taRsiBackend (close : List PFloat) (L : Int) : Option (List (Option PFloat)) :=
  some ((taRsiModel (close.map PFloat.toRat) L.toNat).map (Option.map PFloat.val))

/-- A concrete backend: the spec-modelled RSI, with the TRIX and MACD
routines declining to produce a frame. -/
def modelTa : TaBackend where
  taRsi := taRsiBackend
  taTrix := fun _ _ _ => none
  taMacd := fun _ _ _ _ => none

/-- An all-absent indicator point at a given date. -/
def emptyTI (d : Nat) : TechnicalIndicators :=
  { date := d, rsi := none, trix := none, trix_signal := none
    macd := none, macd_signal := none, macd_histogram := none }

/-- An indicator point carrying only an RSI value. -/
def tiRsi (d : Nat) (r : ℚ) : TechnicalIndicators :=
  { emptyTI d with rsi := some (PFloat.val r) }

/-- An indicator point carrying only a TRIX value and TRIX signal value. -/
def tiTrix (d : Nat) (t s : ℚ) : TechnicalIndicators :=
  { emptyTI d with trix := some (PFloat.val t), trix_signal := some (PFloat.val s) }

/-- An indicator point carrying only a MACD value and MACD signal value. -/
def tiMacd (d : Nat) (m s : ℚ) : TechnicalIndicators :=
  { emptyTI d with macd := some (PFloat.val m), macd_signal := some (PFloat.val s) }

/-- The two TRIX points of the spec's triple-smoothed example:
previous value -0.5 with signal -0.6, current value 0.2 with signal 0.1. -/
def c1Input : List TechnicalIndicators :=
  [tiTrix 0 (-1/2) (-3/5), tiTrix 1 (1/5) (1/10)]

/-- The two RSI points of the oversold example: previous 35, current 25. -/
def c4Input : List TechnicalIndicators := [tiRsi 0 35, tiRsi 1 25]

/-- MACD golden-cross example points: previous {-100, -50}, current {100, 50}. -/
def c5GoldenInput : List TechnicalIndicators :=
  [tiMacd 0 (-100) (-50), tiMacd 1 100 50]

/-- MACD dead-cross example points: previous {100, 50}, current {-100, -50}. -/
def c5DeadInput : List TechnicalIndicators :=
  [tiMacd 0 100 50, tiMacd 1 (-100) (-50)]

/-- A one-day price series. -/
def pd0 : PriceData :=
  { date := 0, «open» := 1, high := 1, low := 1, close := 1
    volume := 0, trading_value := 0, change_rate := 0 }

/-- A strictly increasing 15-day close series `1, 2, ..., 15`, long enough
for the 14-period momentum oscillator to produce one defined value. -/
def pd15 : List PriceData :=
  (List.range 15).map fun i =>
    { date := i, «open» := (i : ℚ) + 1, high := (i : ℚ) + 1, low := (i : ℚ) + 1
      close := (i : ℚ) + 1, volume := 0, trading_value := 0, change_rate := 0 }

/-- The indicator point `calculate_all` produces at position 14 of `pd15`
under the modelled backend: RSI 100 on a pure uptrend, all else absent. -/
def c8T : TechnicalIndicators :=
  { emptyTI 14 with rsi := some (PFloat.val 100) }


/-! ## Basic lemmas about the float model -/

theorem PFloat.lt_val_true {a : PFloat} {c : ℚ} (h : a.lt (PFloat.val c) = true) :
    ∃ x, a = PFloat.val x ∧ x < c := by
  cases a with
  | val x => exact ⟨x, rfl, by simpa [PFloat.lt] using h⟩
  | nan => simp [PFloat.lt] at h

theorem PFloat.val_lt_true {a : PFloat} {c : ℚ} (h : (PFloat.val c).lt a = true) :
    ∃ x, a = PFloat.val x ∧ c < x := by
  cases a with
  | val x => exact ⟨x, rfl, by simpa [PFloat.lt] using h⟩
  | nan => simp [PFloat.lt] at h

theorem pyTrunc_nonneg {q : ℚ} (h : 0 ≤ q) : 0 ≤ pyTrunc q := by
  rw [pyTrunc, if_pos h]
  exact Int.floor_nonneg.mpr h

theorem pyTrunc_eq_floor {q : ℚ} (h : 0 ≤ q) : pyTrunc q = ⌊q⌋ := by
  rw [pyTrunc, if_pos h]

theorem pyIntP_sub_pabs_mulC_nonneg (a b : PFloat) {c : ℚ} (hc : 0 ≤ c) :
    0 ≤ pyIntP (((a.sub b).pabs).mulC c) := by
  cases a with
  | nan => simp [PFloat.sub, PFloat.pabs, PFloat.mulC, pyIntP]
  | val x =>
    cases b with
    | nan => simp [PFloat.sub, PFloat.pabs, PFloat.mulC, pyIntP]
    | val y =>
      simp only [PFloat.sub, PFloat.pabs, PFloat.mulC, pyIntP]
      exact pyTrunc_nonneg (mul_nonneg (abs_nonneg _) hc)

theorem pyIntP_sub_pabs_divC_nonneg (a b : PFloat) {c : ℚ} (hc : 0 ≤ c) :
    0 ≤ pyIntP (((a.sub b).pabs).divC c) := by
  cases a with
  | nan => simp [PFloat.sub, PFloat.pabs, PFloat.divC, pyIntP]
  | val x =>
    cases b with
    | nan => simp [PFloat.sub, PFloat.pabs, PFloat.divC, pyIntP]
    | val y =>
      simp only [PFloat.sub, PFloat.pabs, PFloat.divC, pyIntP]
      exact pyTrunc_nonneg (div_nonneg (abs_nonneg _) hc)

theorem min5_bounds {n k : Int} (hn : 0 ≤ n) (hk1 : 1 ≤ k) (hk5 : k ≤ 5) :
    1 ≤ min 5 (n + k) ∧ min 5 (n + k) ≤ 5 :=
  ⟨le_min (by omega) (by omega), min_le_left _ _⟩

/-! ## Per-family shape lemmas for the rule engine -/

theorem generateRsiSignal_spec {cur : PFloat} {prevO : Option PFloat} {s : Signal}
    (h : generateRsiSignal cur prevO = some s) :
    s.indicator = "RSI" ∧ (s.signal = SignalType.BUY ∨ s.signal = SignalType.SELL) ∧
    1 ≤ s.strength ∧ s.strength ≤ 5 := by
  unfold generateRsiSignal at h
  split_ifs at h with h1 h2
  · obtain ⟨x, rfl, hx⟩ := PFloat.lt_val_true h1
    obtain rfl := Option.some.inj h
    refine ⟨rfl, Or.inl rfl, ?_⟩
    simp only [PFloat.sub, PFloat.divC, pyIntP]
    exact min5_bounds (pyTrunc_nonneg (div_nonneg (by linarith) (by norm_num)))
      le_rfl (by norm_num)
  · obtain ⟨x, rfl, hx⟩ := PFloat.val_lt_true h2
    obtain rfl := Option.some.inj h
    refine ⟨rfl, Or.inr rfl, ?_⟩
    simp only [PFloat.sub, PFloat.divC, pyIntP]
    exact min5_bounds (pyTrunc_nonneg (div_nonneg (by linarith) (by norm_num)))
      le_rfl (by norm_num)
  · cases prevO with
    | none => exact absurd h (by simp)
    | some p =>
      dsimp only at h
      split_ifs at h with h3 h4
      · obtain rfl := Option.some.inj h
        exact ⟨rfl, Or.inl rfl, by norm_num, by norm_num⟩
      · obtain rfl := Option.some.inj h
        exact ⟨rfl, Or.inr rfl, by norm_num, by norm_num⟩

theorem generateTrixSignal_spec {ct cs : PFloat} {pt ps : Option PFloat} {s : Signal}
    (h : generateTrixSignal ct cs pt ps = some s) :
    s.indicator = "TRIX" ∧ (s.signal = SignalType.BUY ∨ s.signal = SignalType.SELL) ∧
    1 ≤ s.strength ∧ s.strength ≤ 5 := by
  unfold generateTrixSignal at h
  cases pt with
  | none => exact absurd h (by simp)
  | some a =>
    cases ps with
    | none => exact absurd h (by simp)
    | some b =>
      dsimp only at h
      split_ifs at h with h1 h2 h3 h4
      · obtain rfl := Option.some.inj h
        exact ⟨rfl, Or.inl rfl,
          min5_bounds (pyIntP_sub_pabs_mulC_nonneg _ _ (by norm_num))
            (by norm_num) (by norm_num)⟩
      · obtain rfl := Option.some.inj h
        exact ⟨rfl, Or.inr rfl,
          min5_bounds (pyIntP_sub_pabs_mulC_nonneg _ _ (by norm_num))
            (by norm_num) (by norm_num)⟩
      · obtain rfl := Option.some.inj h
        exact ⟨rfl, Or.inl rfl, by norm_num, by norm_num⟩
      · obtain rfl := Option.some.inj h
        exact ⟨rfl, Or.inr rfl, by norm_num, by norm_num⟩

theorem generateMacdSignal_spec {cm cs : PFloat} {pm ps : Option PFloat} {s : Signal}
    (h : generateMacdSignal cm cs pm ps = some s) :
    s.indicator = "MACD" ∧ (s.signal = SignalType.BUY ∨ s.signal = SignalType.SELL) ∧
    1 ≤ s.strength ∧ s.strength ≤ 5 := by
  unfold generateMacdSignal at h
  cases pm with
  | none => exact absurd h (by simp)
  | some a =>
    cases ps with
    | none => exact absurd h (by simp)
    | some b =>
      dsimp only at h
      split_ifs at h with h1 h2 h3 h4
      · obtain rfl := Option.some.inj h
        exact ⟨rfl, Or.inl rfl,
          min5_bounds (pyIntP_sub_pabs_divC_nonneg _ _ (by norm_num))
            (by norm_num) (by norm_num)⟩
      · obtain rfl := Option.some.inj h
        exact ⟨rfl, Or.inr rfl,
          min5_bounds (pyIntP_sub_pabs_divC_nonneg _ _ (by norm_num))
            (by norm_num) (by norm_num)⟩
      · obtain rfl := Option.some.inj h
        exact ⟨rfl, Or.inl rfl, by norm_num, by norm_num⟩
      · obtain rfl := Option.some.inj h
        exact ⟨rfl, Or.inr rfl, by norm_num, by norm_num⟩

theorem mem_rsiPart {latest prev : TechnicalIndicators} {s : Signal}
    (h : s ∈ rsiPart latest prev) :
    ∃ r, latest.rsi = some r ∧ generateRsiSignal r prev.rsi = some s := by
  unfold rsiPart at h
  split at h
  · rename_i r hr
    split at h
    · rename_i s0 hs0
      obtain rfl := List.mem_singleton.mp h
      exact ⟨r, hr, hs0⟩
    · exact absurd h (by simp)
  · exact absurd h (by simp)

theorem mem_trixPart {latest prev : TechnicalIndicators} {s : Signal}
    (h : s ∈ trixPart latest prev) :
    ∃ t ts, latest.trix = some t ∧ latest.trix_signal = some ts ∧
      generateTrixSignal t ts prev.trix prev.trix_signal = some s := by
  unfold trixPart at h
  split at h
  · rename_i t ts ht hts
    split at h
    · rename_i s0 hs0
      obtain rfl := List.mem_singleton.mp h
      exact ⟨t, ts, ht, hts, hs0⟩
    · exact absurd h (by simp)
  · exact absurd h (by simp)

theorem mem_macdPart {latest prev : TechnicalIndicators} {s : Signal}
    (h : s ∈ macdPart latest prev) :
    ∃ m ms, latest.macd = some m ∧ latest.macd_signal = some ms ∧
      generateMacdSignal m ms prev.macd prev.macd_signal = some s := by
  unfold macdPart at h
  split at h
  · rename_i m ms hm hms
    split at h
    · rename_i s0 hs0
      obtain rfl := List.mem_singleton.mp h
      exact ⟨m, ms, hm, hms, hs0⟩
    · exact absurd h (by simp)
  · exact absurd h (by simp)

theorem mem_generate_signals {inds : List TechnicalIndicators} {s : Signal}
    (h : s ∈ generate_signals inds) :
    ∃ latest prev rest, inds.reverse = latest :: prev :: rest ∧
      (s ∈ rsiPart latest prev ∨ s ∈ trixPart latest prev ∨ s ∈ macdPart latest prev) := by
  unfold generate_signals at h
  split at h
  · rename_i latest prev rest heq
    rw [List.mem_append, List.mem_append] at h
    exact ⟨latest, prev, rest, heq, by tauto⟩
  · exact absurd h (by simp)

/-- A signal coming from any family block satisfies the shared shape
invariants (named indicator, BUY/SELL direction, strength in [1,5]). -/
theorem mem_generate_signals_spec {inds : List TechnicalIndicators} {s : Signal}
    (h : s ∈ generate_signals inds) :
    (s.indicator = "RSI" ∨ s.indicator = "TRIX" ∨ s.indicator = "MACD") ∧
    (s.signal = SignalType.BUY ∨ s.signal = SignalType.SELL) ∧
    1 ≤ s.strength ∧ s.strength ≤ 5 := by
  obtain ⟨latest, prev, rest, -, hmem⟩ := mem_generate_signals h
  rcases hmem with hp | hp | hp
  · obtain ⟨r, -, hs⟩ := mem_rsiPart hp
    obtain ⟨h1, h2, h3⟩ := generateRsiSignal_spec hs
    exact ⟨Or.inl h1, h2, h3⟩
  · obtain ⟨t, ts, -, -, hs⟩ := mem_trixPart hp
    obtain ⟨h1, h2, h3⟩ := generateTrixSignal_spec hs
    exact ⟨Or.inr (Or.inl h1), h2, h3⟩
  · obtain ⟨m, ms, -, -, hs⟩ := mem_macdPart hp
    obtain ⟨h1, h2, h3⟩ := generateMacdSignal_spec hs
    exact ⟨Or.inr (Or.inr h1), h2, h3⟩

theorem rsiPart_indicator_sublist (latest prev : TechnicalIndicators) :
    ((rsiPart latest prev).map Signal.indicator).Sublist ["RSI"] := by
  unfold rsiPart
  split
  · rename_i r hr
    split
    · rename_i s0 hs0
      simp [(generateRsiSignal_spec hs0).1]
    · simp
  · simp

theorem trixPart_indicator_sublist (latest prev : TechnicalIndicators) :
    ((trixPart latest prev).map Signal.indicator).Sublist ["TRIX"] := by
  unfold trixPart
  split
  · rename_i t ts ht hts
    split
    · rename_i s0 hs0
      simp [(generateTrixSignal_spec hs0).1]
    · simp
  · simp

theorem macdPart_indicator_sublist (latest prev : TechnicalIndicators) :
    ((macdPart latest prev).map Signal.indicator).Sublist ["MACD"] := by
  unfold macdPart
  split
  · rename_i m ms hm hms
    split
    · rename_i s0 hs0
      simp [(generateMacdSignal_spec hs0).1]
    · simp
  · simp

theorem generate_signals_indicator_sublist (inds : List TechnicalIndicators) :
    ((generate_signals inds).map Signal.indicator).Sublist ["RSI", "TRIX", "MACD"] := by
  unfold generate_signals
  split
  · rename_i latest prev rest heq
    rw [List.map_append, List.map_append]
    have h1 := rsiPart_indicator_sublist latest prev
    have h2 := trixPart_indicator_sublist latest prev
    have h3 := macdPart_indicator_sublist latest prev
    have : (["RSI"] ++ ["TRIX"] ++ ["MACD"] : List String) = ["RSI", "TRIX", "MACD"] := rfl
    rw [← this]
    exact (h1.append h2).append h3
  · simp

/-! ## Lemmas about `calculate_all` and the modelled oscillator -/

theorem bind_safe_float_ne_nan (o : Option (Option PFloat)) :
    o.bind safe_float ≠ some PFloat.nan := by
  cases o with
  | none => simp
  | some v =>
    cases v with
    | none => simp [safe_float]
    | some pf => cases pf <;> simp [safe_float]

theorem mem_calculate_all {c : TechnicalIndicatorCalculator} {ta : TaBackend}
    {pd : List PriceData} {t : TechnicalIndicators}
    (h : t ∈ c.calculate_all ta pd) :
    ∃ i p, pd.get? i = some p ∧
      t = { date := p.date
            rsi := ((c.calculate_rsi ta (pd.map fun q => PFloat.val q.close) none).get? i).bind safe_float
            trix := ((c.calculate_trix ta (pd.map fun q => PFloat.val q.close) none none).1.get? i).bind safe_float
            trix_signal := ((c.calculate_trix ta (pd.map fun q => PFloat.val q.close) none none).2.get? i).bind safe_float
            macd := ((c.calculate_macd ta (pd.map fun q => PFloat.val q.close) none none none).1.get? i).bind safe_float
            macd_signal := ((c.calculate_macd ta (pd.map fun q => PFloat.val q.close) none none none).2.1.get? i).bind safe_float
            macd_histogram := ((c.calculate_macd ta (pd.map fun q => PFloat.val q.close) none none none).2.2.get? i).bind safe_float } := by
  unfold TechnicalIndicatorCalculator.calculate_all at h
  split at h
  · exact absurd h (by simp)
  · obtain ⟨ip, hip, heq⟩ := List.mem_map.mp h
    exact ⟨ip.1, ip.2, List.mem_enum_iff_get?.mp hip, heq.symm⟩

theorem wilderRma_nonneg {L : Nat} (hL : 1 ≤ L) :
    ∀ (prev : ℚ) (xs : List ℚ), 0 ≤ prev → (∀ x ∈ xs, 0 ≤ x) →
    ∀ v ∈ wilderRma L prev xs, 0 ≤ v := by
  intro prev xs
  induction xs generalizing prev with
  | nil =>
    intro _ _ v hv
    simp [wilderRma] at hv
  | cons x xs ih =>
    intro hprev hxs v hv
    have hcur : 0 ≤ (prev * ((L : ℚ) - 1) + x) / L := by
      apply div_nonneg _ (Nat.cast_nonneg L)
      have hL1 : (1 : ℚ) ≤ (L : ℚ) := by exact_mod_cast hL
      have := hxs x (List.mem_cons_self x xs)
      have := mul_nonneg hprev (sub_nonneg.mpr hL1)
      linarith
    simp only [wilderRma] at hv
    rcases List.mem_cons.mp hv with rfl | hv2
    · exact hcur
    · exact ih _ hcur (fun y hy => hxs y (List.mem_cons_of_mem x hy)) v hv2

theorem seeded_wilder_nonneg {L : Nat} (hL : 1 ≤ L) (xs : List ℚ)
    (hxs : ∀ x ∈ xs, 0 ≤ x) :
    ∀ v ∈ ((xs.take L).sum / (L : ℚ)) ::
        wilderRma L ((xs.take L).sum / (L : ℚ)) (xs.drop L), 0 ≤ v := by
  have hseed : 0 ≤ (xs.take L).sum / (L : ℚ) :=
    div_nonneg (List.sum_nonneg fun x hx => hxs x (List.take_subset L xs hx))
      (Nat.cast_nonneg L)
  intro v hv
  rcases List.mem_cons.mp hv with rfl | hv2
  · exact hseed
  · exact wilderRma_nonneg hL _ _ hseed
      (fun y hy => hxs y (List.drop_subset L xs hy)) v hv2

theorem ratio_bounds {a b : ℚ} (ha : 0 ≤ a) (hb : 0 ≤ b) (hz : a + b ≠ 0) :
    0 ≤ 100 * a / (a + b) ∧ 100 * a / (a + b) ≤ 100 := by
  have hpos : 0 < a + b := lt_of_le_of_ne (add_nonneg ha hb) (Ne.symm hz)
  constructor
  · exact div_nonneg (mul_nonneg (by norm_num) ha) hpos.le
  · rw [div_le_iff hpos]
    linarith

theorem taRsiModel_bounds {close : List ℚ} {L : Nat} {q : ℚ}
    (h : some q ∈ taRsiModel close L) : 0 ≤ q ∧ q ≤ 100 := by
  unfold taRsiModel at h
  split at h
  · exact absurd (List.eq_of_mem_replicate h) (by simp)
  · rename_i hcond
    push_neg at hcond
    obtain ⟨hL0, -⟩ := hcond
    have hL : 1 ≤ L := Nat.one_le_iff_ne_zero.mpr hL0
    rw [List.mem_append] at h
    rcases h with h | h
    · exact absurd (List.eq_of_mem_replicate h) (by simp)
    · obtain ⟨p, hp, heq⟩ := List.mem_map.mp h
      obtain ⟨a, b⟩ := p
      by_cases hz : a + b = 0
      · rw [if_pos hz] at heq
        exact absurd heq (by simp)
      · rw [if_neg hz] at heq
        obtain rfl := Option.some.inj heq
        obtain ⟨hma, hmb⟩ := List.of_mem_zip hp
        have hgain : ∀ x ∈ (((close.zip close.tail).map fun p => p.2 - p.1).map
            fun d => max d 0), 0 ≤ x := by
          intro x hx
          obtain ⟨d, -, rfl⟩ := List.mem_map.mp hx
          exact le_max_right d 0
        have hloss : ∀ x ∈ (((close.zip close.tail).map fun p => p.2 - p.1).map
            fun d => max (-d) 0), 0 ≤ x := by
          intro x hx
          obtain ⟨d, -, rfl⟩ := List.mem_map.mp hx
          exact le_max_right (-d) 0
        exact ratio_bounds (seeded_wilder_nonneg hL _ hgain a hma)
          (seeded_wilder_nonneg hL _ hloss b hmb) hz

theorem calculate_rsi_model (c : TechnicalIndicatorCalculator) (ta : TaBackend)
    (hta : ta.taRsi = taRsiBackend) (close : List PFloat) (lenOpt : Option Int) :
    c.calculate_rsi ta close lenOpt =
      (taRsiModel (close.map PFloat.toRat) (pyOrInt lenOpt c.rsi_length).toNat).map
        (Option.map PFloat.val) := by
  unfold TechnicalIndicatorCalculator.calculate_rsi
  rw [hta]
  rfl

theorem bind_safe_float_map_val {l : List (Option ℚ)} {i : Nat} {q : ℚ}
    (h : ((l.map (Option.map PFloat.val)).get? i).bind safe_float = some (PFloat.val q)) :
    some q ∈ l := by
  rw [List.get?_map] at h
  cases hg : l.get? i with
  | none => rw [hg] at h; simp at h
  | some o =>
    rw [hg] at h
    cases o with
    | none => simp [safe_float] at h
    | some r =>
      simp only [Option.map_some, Option.bind_some, safe_float] at h
      obtain rfl : r = q := by
        have := Option.some.inj h
        exact PFloat.val.inj this
      exact List.get?_mem hg

/-! ## Claim theorems -/

/-- Claim C1, counterexample: on the triple-smoothed example points
(previous value -0.5 / signal -0.6, current value 0.2 / signal 0.1) the one
emitted TRIX signal does not have strength 3, so the claimed
signal-line-cross output is not what the code produces. -/
theorem claim_c1_counterexample :
    (generate_signals c1Input).map Signal.strength ≠ [3] := by
  have h : (generate_signals c1Input).map Signal.strength = [2] := by
    with_unfolding_all rfl
  rw [h]
  decide

/-- Claim C1, amended: on those points the previous TRIX value (-0.5) is
already above its signal (-0.6), so no signal-line cross occurs; the engine
returns exactly one TRIX signal with direction BUY from the zero-line
cross-up branch, with strength 2. -/
theorem claim_c1_amended :
    generate_signals c1Input =
      [{ indicator := "TRIX", signal := SignalType.BUY
         reason := "TRIX 0선 상향 돌파", strength := 2 }] := by
  with_unfolding_all rfl

/-- Claim C4: whenever the current point's RSI is present with value below
30, `generate_signals` on the pair emits the oversold BUY signal with
strength `min 5 (floor ((30 - rsi) / 6) + 1)`; on the concrete points
rsi 35 then rsi 25 the output is exactly that one signal, with strength 1. -/
theorem claim_c4 :
    (∀ (prev cur : TechnicalIndicators) (r : ℚ), cur.rsi = some (PFloat.val r) →
      r < 30 →
      ({ indicator := "RSI", signal := SignalType.BUY
         reason := "RSI 과매도 구간 진입"
         strength := min 5 (⌊(30 - r) / 6⌋ + 1) } : Signal) ∈
        generate_signals [prev, cur]) ∧
    generate_signals c4Input =
      [{ indicator := "RSI", signal := SignalType.BUY
         reason := "RSI 과매도 구간 진입", strength := 1 }] := by
  constructor
  · intro prev cur r hr hlt
    have hgen : generate_signals [prev, cur] =
        rsiPart cur prev ++ trixPart cur prev ++ macdPart cur prev := rfl
    rw [hgen]
    apply List.mem_append_left
    apply List.mem_append_left
    unfold rsiPart
    rw [hr]
    unfold generateRsiSignal
    dsimp only
    have hcond : (PFloat.val r).lt (PFloat.val 30) = true := by
      simp only [PFloat.lt, decide_eq_true_eq]
      exact hlt
    rw [if_pos hcond]
    have hstr : pyIntP (((PFloat.val 30).sub (PFloat.val r)).divC 6) =
        ⌊(30 - r) / 6⌋ := by
      simp only [PFloat.sub, PFloat.divC, pyIntP]
      exact pyTrunc_eq_floor (div_nonneg (by linarith) (by norm_num))
    rw [hstr]
    exact List.mem_singleton_self _
  · with_unfolding_all rfl

/-- Claim C4 witness: the hypotheses hold at the concrete oversold pair
(rsi 35 then rsi 25) and the theorem places the BUY signal in the output. -/
theorem claim_c4_witness :
    ({ indicator := "RSI", signal := SignalType.BUY
       reason := "RSI 과매도 구간 진입"
       strength := min 5 (⌊(30 - (25 : ℚ)) / 6⌋ + 1) } : Signal) ∈
      generate_signals [tiRsi 0 35, tiRsi 1 25] :=
  claim_c4.left (tiRsi 0 35) (tiRsi 1 25) 25 rfl (by norm_num)

/-- Claim C5, counterexample: on the MACD golden-cross example points
(previous MACD -100 / signal -50, current MACD 100 / signal 50) the one
emitted MACD signal does not have strength 3: the code divides
`|current MACD - current signal| = 50` by 100, giving strength 2. -/
theorem claim_c5_counterexample :
    (generate_signals c5GoldenInput).map Signal.strength ≠ [3] := by
  have h : (generate_signals c5GoldenInput).map Signal.strength = [2] := by
    with_unfolding_all rfl
  rw [h]
  decide

/-- Claim C5, amended: on the golden-cross points the engine returns exactly
one MACD signal, direction BUY, strength `min 5 (floor (50 / 100) + 2) = 2`;
on the symmetric dead-cross points, exactly one MACD signal, direction SELL,
strength 2. -/
theorem claim_c5_amended :
    generate_signals c5GoldenInput =
      [{ indicator := "MACD", signal := SignalType.BUY
         reason := "MACD 골든크로스 - 시그널 상향 돌파", strength := 2 }] ∧
    generate_signals c5DeadInput =
      [{ indicator := "MACD", signal := SignalType.SELL
         reason := "MACD 데드크로스 - 시그널 하향 돌파", strength := 2 }] :=
  ⟨by with_unfolding_all rfl, by with_unfolding_all rfl⟩

/-- Claim C6: `calculate_all` on the empty price list returns the empty
list for every calculator and library backend, and `generate_signals` on
any list of fewer than two indicator points returns the empty signal list. -/
theorem claim_c6 :
    (∀ (c : TechnicalIndicatorCalculator) (ta : TaBackend),
      c.calculate_all ta [] = []) ∧
    ∀ inds : List TechnicalIndicators, inds.length < 2 → generate_signals inds = [] := by
  constructor
  · intro c ta
    rfl
  · intro inds h
    cases inds with
    | nil => rfl
    | cons a t =>
      cases t with
      | nil => rfl
      | cons b t2 =>
        simp only [List.length_cons] at h
        omega

/-- Claim C6 witness: a single indicator point has length below two, and the
theorem yields the empty signal list there. -/
theorem claim_c6_witness :
    ([emptyTI 0] : List TechnicalIndicators).length < 2 ∧
      generate_signals [emptyTI 0] = [] :=
  ⟨by decide, claim_c6.right [emptyTI 0] (by decide)⟩

/-- Claim C10: passing 0 explicitly as any period argument of
`calculate_rsi`, `calculate_trix` or `calculate_macd` behaves exactly like
passing no argument, because the Python truthiness selection
(`length or self.rsi_length`) treats 0 as falsy and falls back to the
calculator's configured default. -/
theorem claim_c10 :
    ∀ (c : TechnicalIndicatorCalculator) (ta : TaBackend) (close : List PFloat),
      c.calculate_rsi ta close (some 0) = c.calculate_rsi ta close none ∧
      c.calculate_trix ta close (some 0) (some 0) =
        c.calculate_trix ta close none none ∧
      c.calculate_macd ta close (some 0) (some 0) (some 0) =
        c.calculate_macd ta close none none none ∧
      pyOrInt (some 0) c.rsi_length = c.rsi_length :=
  fun _ _ _ => ⟨rfl, rfl, rfl, rfl⟩

/-- Claim C2: for every calculator, library backend and price series,
`calculate_all` returns exactly one indicator point per input point, and the
date projections agree position for position. -/
theorem claim_c2 :
    ∀ (c : TechnicalIndicatorCalculator) (ta : TaBackend) (pd : List PriceData),
      (c.calculate_all ta pd).length = pd.length ∧
      (c.calculate_all ta pd).map TechnicalIndicators.date =
        pd.map PriceData.date := by
  intro c ta pd
  have hmap : (c.calculate_all ta pd).map TechnicalIndicators.date =
      pd.map PriceData.date := by
    unfold TechnicalIndicatorCalculator.calculate_all
    split
    · rename_i h
      rw [List.isEmpty_iff.mp h]
      rfl
    · rw [List.map_map]
      conv_rhs => rw [← List.enum_map_snd pd, List.map_map]
      rfl
  refine ⟨?_, hmap⟩
  have hlen := congrArg List.length hmap
  simpa using hlen

/-- Claim C3: every signal emitted by `generate_signals`, on any input list,
has strength between 1 and 5. -/
theorem claim_c3 :
    ∀ (inds : List TechnicalIndicators) (s : Signal), s ∈ generate_signals inds →
      1 ≤ s.strength ∧ s.strength ≤ 5 :=
  fun _ _ h => (mem_generate_signals_spec h).2.2

/-- Claim C3 witness: the oversold-entry signal emitted on the concrete pair
(rsi 35 then rsi 25) has strength within [1, 5]. -/
theorem claim_c3_witness :
    1 ≤ ({ indicator := "RSI", signal := SignalType.BUY
           reason := "RSI 과매도 구간 진입", strength := 1 } : Signal).strength ∧
      ({ indicator := "RSI", signal := SignalType.BUY
         reason := "RSI 과매도 구간 진입", strength := 1 } : Signal).strength ≤ 5 :=
  claim_c3 c4Input _ (by
    have h : generate_signals c4Input =
        [{ indicator := "RSI", signal := SignalType.BUY
           reason := "RSI 과매도 구간 진입", strength := 1 }] := by
      with_unfolding_all rfl
    rw [h]
    exact List.mem_singleton_self _)

/-- Claim C7: no optional indicator field of any point of `calculate_all`'s
output is NaN, for any backend behaviour: `_safe_float` maps NaN (and
`None`) to absent. -/
theorem claim_c7 :
    ∀ (c : TechnicalIndicatorCalculator) (ta : TaBackend) (pd : List PriceData)
      (t : TechnicalIndicators), t ∈ c.calculate_all ta pd →
      t.rsi ≠ some PFloat.nan ∧ t.trix ≠ some PFloat.nan ∧
      t.trix_signal ≠ some PFloat.nan ∧ t.macd ≠ some PFloat.nan ∧
      t.macd_signal ≠ some PFloat.nan ∧ t.macd_histogram ≠ some PFloat.nan := by
  intro c ta pd t h
  obtain ⟨i, p, -, rfl⟩ := mem_calculate_all h
  exact ⟨bind_safe_float_ne_nan _, bind_safe_float_ne_nan _, bind_safe_float_ne_nan _,
    bind_safe_float_ne_nan _, bind_safe_float_ne_nan _, bind_safe_float_ne_nan _⟩

/-- Claim C7 witness: on a one-day series with the modelled backend the
single output point is the all-absent point, and the theorem applies to it. -/
theorem claim_c7_witness :
    (emptyTI 0).rsi ≠ some PFloat.nan ∧ (emptyTI 0).trix ≠ some PFloat.nan ∧
    (emptyTI 0).trix_signal ≠ some PFloat.nan ∧ (emptyTI 0).macd ≠ some PFloat.nan ∧
    (emptyTI 0).macd_signal ≠ some PFloat.nan ∧
    (emptyTI 0).macd_histogram ≠ some PFloat.nan :=
  claim_c7 defaultCalc modelTa [pd0] (emptyTI 0) (by
    have h : defaultCalc.calculate_all modelTa [pd0] = [emptyTI 0] := by
      with_unfolding_all rfl
    rw [h]
    exact List.mem_singleton_self _)

/-- Claim C8: with the spec-modelled momentum oscillator as backend, every
present RSI value in `calculate_all`'s output lies in [0, 100]. -/
theorem claim_c8 :
    ∀ (c : TechnicalIndicatorCalculator) (ta : TaBackend), ta.taRsi = taRsiBackend →
      ∀ (pd : List PriceData) (t : TechnicalIndicators), t ∈ c.calculate_all ta pd →
      ∀ q : ℚ, t.rsi = some (PFloat.val q) → 0 ≤ q ∧ q ≤ 100 := by
  intro c ta hta pd t h q hq
  obtain ⟨i, p, -, rfl⟩ := mem_calculate_all h
  dsimp only at hq
  rw [calculate_rsi_model c ta hta] at hq
  exact taRsiModel_bounds (bind_safe_float_map_val hq)

/-- Claim C8 witness: on the strictly increasing 15-day series the output
point at position 14 carries RSI 100, and the theorem bounds it by [0, 100]. -/
theorem claim_c8_witness : (0 : ℚ) ≤ 100 ∧ (100 : ℚ) ≤ 100 :=
  claim_c8 defaultCalc modelTa rfl pd15 c8T
    (List.get?_mem
      (by with_unfolding_all rfl :
        (defaultCalc.calculate_all modelTa pd15).get? 14 = some c8T))
    100 rfl

/-- Claim C9: `generate_signals` emits at most three signals, at most one
per oscillator family in encounter order RSI, TRIX, MACD (the indicator
projection is a sublist of that order), every emitted direction is BUY or
SELL (never HOLD), and on any list ending in (previous, latest) the output
decomposes into the three independent family blocks, each reading only its
own family's fields. -/
theorem claim_c9 :
    (∀ inds : List TechnicalIndicators,
      (generate_signals inds).length ≤ 3 ∧
      ((generate_signals inds).map Signal.indicator).Sublist ["RSI", "TRIX", "MACD"] ∧
      ∀ s ∈ generate_signals inds,
        s.signal = SignalType.BUY ∨ s.signal = SignalType.SELL) ∧
    ∀ (rest : List TechnicalIndicators) (prev latest : TechnicalIndicators),
      generate_signals (rest ++ [prev, latest]) =
        rsiPart latest prev ++ trixPart latest prev ++ macdPart latest prev := by
  constructor
  · intro inds
    have hsub := generate_signals_indicator_sublist inds
    refine ⟨?_, hsub, ?_⟩
    · have h3 := hsub.length_le
      simpa using h3
    · intro s hs
      exact (mem_generate_signals_spec hs).2.1
  · intro rest prev latest
    unfold generate_signals
    rw [List.reverse_append]
    rfl

/-- Claim C9 witness: the signal emitted on the concrete oversold pair has
direction BUY or SELL. -/
theorem claim_c9_witness :
    ({ indicator := "RSI", signal := SignalType.BUY
       reason := "RSI 과매도 구간 진입", strength := 1 } : Signal).signal =
        SignalType.BUY ∨
      ({ indicator := "RSI", signal := SignalType.BUY
         reason := "RSI 과매도 구간 진입", strength := 1 } : Signal).signal =
        SignalType.SELL :=
  (claim_c9.left c4Input).2.2 _ (by
    have h : generate_signals c4Input =
        [{ indicator := "RSI", signal := SignalType.BUY
           reason := "RSI 과매도 구간 진입", strength := 1 }] := by
      with_unfolding_all rfl
    rw [h]
    exact List.mem_singleton_self _)
